import Mathlib

/-!
Verification development for the Soundpad-Commander shortcut-to-action
dispatch system.

The Python sources are shallowly embedded:
* `Soundpad/soundpad_client.py` — the IPC protocol client (`SoundpadClient`);
* `Soundpad/keyboard_listener_keyboard.py` — the hotkey registry and the
  key-combination normalization helpers;
* `Soundpad/config_manager.py` — the conflict resolver
  (`get_conflicting_shortcuts`);
* the runtime module (`SoundpadRuntime`) — hotkey dispatch callbacks.

The OS byte-stream channel (a Windows named pipe) is modelled by a `Channel`
value describing the outcome of each primitive operation (`os.open`,
`os.write`, the two-stage `os.read`) for one exchange.  Python exceptions
are modelled by an explicit error type; human-readable exception messages
are elided since no embedded code inspects them.  Wall-clock values
(`time.time()` throttling, `datetime.now()` timestamps) are not modelled:
no claim depends on them.
-/

/-! ### Python string primitives

Keys and protocol payloads are ASCII; the primitives below model CPython
string methods on that domain, operating on the underlying character list.
-/

/-- Whitespace characters stripped by Python `str.strip()` (ASCII range). -/
def isWS (c : Char) : Bool :=
  c == ' ' || c == '\t' || c == '\n' || c == '\r' || c == '\x0b' || c == '\x0c'

/-- Python `str.lower()` on one character (ASCII letters). -/
def charLower (c : Char) : Char :=
  if 65 ≤ c.toNat ∧ c.toNat ≤ 90 then Char.ofNat (c.toNat + 32) else c

/-- Python `str.lower()` (ASCII domain). -/
def pyLower (s : String) : String := ⟨s.data.map charLower⟩

/-- Drop leading whitespace, then trailing whitespace (`str.strip()`). -/
def stripList (l : List Char) : List Char :=
  ((l.dropWhile isWS).reverse.dropWhile isWS).reverse

/-- The trailing-whitespace drop inside `stripList`: reverse, drop
leading whitespace, reverse back. -/
def dropTrailing (l : List Char) : List Char := (l.reverse.dropWhile isWS).reverse

/-- Python `str.strip()`. -/
def pyStrip (s : String) : String := ⟨stripList s.data⟩

/-- Python `str.rstrip('\0')`: remove trailing NUL characters. -/
def rstripNull (s : String) : String :=
  ⟨(s.data.reverse.dropWhile (fun c => c == '\x00')).reverse⟩

/-- Python slice `s[:n]`. -/
def strTake (s : String) (n : Nat) : String := ⟨s.data.take n⟩

/-- Python `s.startswith(p)` (equivalently `s[:len(p)] == p`). -/
def strStartsWith (s p : String) : Bool := strTake s p.data.length == p

/-- Python substring test `sub in s`. -/
def strContains (s sub : String) : Bool :=
  (List.range (s.data.length + 1)).any
    (fun i => (s.data.drop i).take sub.data.length == sub.data)

/-- Python `str(b).lower()` for a boolean `b`: the lowercase literal. -/
def pyBoolStr (b : Bool) : String := if b then "true" else "false"

/-- Value of a digit run (caller guarantees all characters are digits). -/
def digitsToNat (l : List Char) : Nat :=
  l.foldl (fun n c => n * 10 + (c.toNat - 48)) 0

/-- Python `int(s)`: optional surrounding whitespace, optional sign, then a
nonempty digit run.  (Digit-group underscores accepted by CPython are not
modelled; no protocol payload contains them.) -/
def pyInt (s : String) : Option Int :=
  match stripList s.data with
  | '-' :: ds =>
    if ds ≠ [] ∧ ds.all (fun c => c.isDigit) then some (-(digitsToNat ds : Int)) else none
  | '+' :: ds =>
    if ds ≠ [] ∧ ds.all (fun c => c.isDigit) then some (digitsToNat ds : Int) else none
  | ds =>
    if ds ≠ [] ∧ ds.all (fun c => c.isDigit) then some (digitsToNat ds : Int) else none

/-- Lexicographic code-point comparison on character lists: Python `<=`
on strings restricted to the embedded ASCII domain. -/
def lexLe : List Char → List Char → Bool
  | [], _ => true
  | _ :: _, [] => false
  | a :: as, b :: bs =>
    if a.toNat < b.toNat then true
    else if b.toNat < a.toNat then false
    else lexLe as bs

/-- Python string comparison `a <= b`. -/
def strLe (a b : String) : Bool := lexLe a.data b.data

/-- Python `sorted` on a list of strings (a stable sort under `strLe`). -/
def pySorted (l : List String) : List String :=
  List.insertionSort (fun a b => strLe a b = true) l

instance : IsTotal String (fun a b => strLe a b = true) where
  total a b := by
    show lexLe a.data b.data = true ∨ lexLe b.data a.data = true
    generalize a.data = x
    generalize b.data = y
    induction x generalizing y with
    | nil => left; rfl
    | cons c cs ih =>
      cases y with
      | nil => right; rfl
      | cons d ds =>
        by_cases h1 : c.toNat < d.toNat
        · left; simp [lexLe, h1]
        · by_cases h2 : d.toNat < c.toNat
          · right; simp [lexLe, h1, h2]
          · rcases ih ds with h | h <;> [left; right] <;> simp [lexLe, h1, h2, h]

instance : IsTrans String (fun a b => strLe a b = true) where
  trans a b c h1 h2 := by
    show lexLe a.data c.data = true
    rw [strLe] at h1 h2
    generalize hx : a.data = x at h1
    generalize hy : b.data = y at h1 h2
    generalize hz : c.data = z at h2
    clear hx hy hz
    induction x generalizing y z with
    | nil => rfl
    | cons xc xs ih =>
      cases y with
      | nil => simp [lexLe] at h1
      | cons yc ys =>
        cases z with
        | nil => simp [lexLe] at h2
        | cons zc zs =>
          simp only [lexLe] at h1 h2 ⊢
          split_ifs at h1 h2 ⊢ <;> try rfl
          all_goals try omega
          all_goals exact ih _ h1 _ h2

/-! ### Protocol Client (`Soundpad/soundpad_client.py`) -/

namespace SoundpadClient

/-- Exception classes raised by the client (`FileNotFoundError`,
`PermissionError`, `OSError`); messages elided. -/
inductive PyExc
  | fileNotFound
  | permissionError
  | osError
deriving DecidableEq, Repr

/-- Outcome of `os.open` on the named pipe for this exchange. -/
inductive OpenOutcome
  | ok (fd : Nat)
  | fileNotFound
  | permissionDenied
  | errno (e : Nat)
deriving DecidableEq, Repr

/-- Outcome of the first one-byte `os.read`. -/
inductive Read1Outcome
  | raises
  | noData
  | byte (c : Char)
deriving DecidableEq, Repr

/-- Behaviour of the OS channel during one `send_request` exchange:
what each primitive operation would do if reached.  `readRest = none`
models the bulk `os.read` raising `OSError`. -/
structure Channel where
  openOutcome : OpenOutcome
  writeOk : Bool
  read1 : Read1Outcome
  readRest : Option String
deriving DecidableEq, Repr

/-- Mutable client state: the pipe handle (`self.pipe`), `None` when
closed.  (`print_errors` and `last_request_timestamp` are not modelled:
they only affect console output and a 1 ms throttle.) -/
structure ClientState where
  pipe : Option Nat
deriving DecidableEq, Repr

/-- `SoundpadClient.init`: lazily open the named pipe.  `errno` 2 is
re-raised as `FileNotFoundError`, 13 as `PermissionError`, 32 and all
others as `OSError`. -/
def init (st : ClientState) (ch : Channel) : Except PyExc ClientState :=
  match st.pipe with
  | some _ => .ok st
  | none =>
    match ch.openOutcome with
    | .ok fd => .ok { pipe := some fd }
    | .fileNotFound => .error .fileNotFound
    | .permissionDenied => .error .permissionError
    | .errno e =>
      if e = 2 then .error .fileNotFound
      else if e = 13 then .error .permissionError
      else .error .osError

/-- `SoundpadClient.uninit`: close the pipe handle. -/
def uninit (_st : ClientState) : ClientState := { pipe := none }

/-- `SoundpadClient.send_request`: init, write the command, two-stage
read, strip trailing NULs.  Any `OSError` inside the exchange closes the
pipe (`self.uninit()`) and is re-raised.  The third component records the
commands this call submitted for transmission. -/
def send_request (st : ClientState) (ch : Channel) (request : String) :
    Except PyExc String × ClientState × List String :=
  match init st ch with
  | .error e => (.error e, st, [request])
  | .ok st1 =>
    if ch.writeOk then
      match ch.read1 with
      | .byte c =>
        match ch.readRest with
        | some rest => (.ok (rstripNull ⟨c :: rest.data⟩), st1, [request])
        | none => (.error .osError, uninit st1, [request])
      | .noData => (.error .osError, uninit st1, [request])
      | .raises => (.error .osError, uninit st1, [request])
    else (.error .osError, uninit st1, [request])

/-- `SoundpadClient.send_request_safe`: catch `(OSError,
FileNotFoundError, PermissionError)`, close the pipe and return `""`.
The match lists one branch per exception class in the `except` tuple,
which covers every constructor of `PyExc`. -/
def send_request_safe (st : ClientState) (ch : Channel) (request : String) :
    String × ClientState × List String :=
  match send_request st ch request with
  | (.ok response, st1, tr) => (response, st1, tr)
  | (.error .osError, st1, tr) => ("", uninit st1, tr)
  | (.error .fileNotFound, st1, tr) => ("", uninit st1, tr)
  | (.error .permissionError, st1, tr) => ("", uninit st1, tr)

/-- `SoundpadClient._is_success`: `response.startswith("R-200")`. -/
def is_success (response : String) : Bool := strStartsWith response "R-200"

/-- The `error_messages` table of `_handle_error_response`, verbatim. -/
def error_messages : List (String × String) :=
  [("R-400", "Bad Request - Invalid command format"),
   ("R-404", "Not Found - Invalid sound/category index"),
   ("R-403", "Forbidden - Command not allowed in trial version"),
   ("R-500", "Internal Server Error - Soundpad error"),
   ("R-503", "Service Unavailable - Soundpad busy")]

/-- `SoundpadClient._handle_error_response`: the human-readable message
(faithful, including the trial-limitation suffix). -/
def handle_error_response (response : String) : String :=
  if response = "" then "No response from Soundpad"
  else if strStartsWith response "R-" then
    let error_code := strTake response 5
    match error_messages.lookup error_code with
    | some base_msg =>
      let base :=
        if strContains (pyLower response) "trial" then
          base_msg ++ " (Trial version limitation)"
        else base_msg
      base ++ ": " ++ response
    | none => "Soundpad error " ++ error_code ++ ": " ++ response
  else "Unexpected response: " ++ response

/-- Outcome kinds of classifying a raw response. -/
inductive ProtocolKind
  | success
  | noResponse
  | badRequest
  | notFound
  | forbidden
  | serverError
  | serviceUnavailable
  | unknown
  | unexpected
deriving DecidableEq, Repr

/-- Response classification: `_is_success` first (as every caller
checks), then the branch structure of `_handle_error_response` with the
`error_messages` table keys mapped to kinds instead of message text. -/
def classify (response : String) : ProtocolKind :=
  if is_success response then .success
  else if response = "" then .noResponse
  else if strStartsWith response "R-" then
    let error_code := strTake response 5
    if error_code = "R-400" then .badRequest
    else if error_code = "R-404" then .notFound
    else if error_code = "R-403" then .forbidden
    else if error_code = "R-500" then .serverError
    else if error_code = "R-503" then .serviceUnavailable
    else .unknown
  else .unexpected

/-- `SoundpadClient._handle_numeric_response`: `-1` sentinel on empty
response, error marker (any `"R"`-initial response), or parse failure. -/
def handle_numeric_response (st : ClientState) (ch : Channel) (request : String) :
    Int × ClientState × List String :=
  match send_request_safe st ch request with
  | (response, st1, tr) =>
    if response = "" then (-1, st1, tr)
    else if strStartsWith response "R" then (-1, st1, tr)
    else
      match pyInt response with
      | some n => (n, st1, tr)
      | none => (-1, st1, tr)

/-- `SoundpadClient.get_volume`: `max(0, numeric("GetVolume()"))`. -/
def get_volume (st : ClientState) (ch : Channel) : Int × ClientState × List String :=
  match handle_numeric_response st ch "GetVolume()" with
  | (n, st1, tr) => (max 0 n, st1, tr)

/-- `SoundpadClient.play_random_sound_from_category`. -/
def play_random_sound_from_category (st : ClientState) (ch : Channel)
    (category_index : Int) (speakers microphone : Bool) :
    Bool × ClientState × List String :=
  let request := "DoPlayRandomSoundFromCategory(" ++ toString category_index ++ ", "
    ++ pyBoolStr speakers ++ ", " ++ pyBoolStr microphone ++ ")"
  match send_request_safe st ch request with
  | (response, st1, tr) => (is_success response, st1, tr)

/-- `SoundpadClient.toggle_pause`. -/
def toggle_pause (st : ClientState) (ch : Channel) : Bool × ClientState × List String :=
  match send_request_safe st ch "DoTogglePause()" with
  | (response, st1, tr) => (is_success response, st1, tr)

/-- `PlayStatus` enumeration. -/
inductive PlayStatus
  | STOPPED
  | PLAYING
  | PAUSED
  | SEEKING
deriving DecidableEq, Repr

/-- `PlayStatus(response)` lookup; `none` models the `ValueError`. -/
def playStatusOf (response : String) : Option PlayStatus :=
  if response = "STOPPED" then some .STOPPED
  else if response = "PLAYING" then some .PLAYING
  else if response = "PAUSED" then some .PAUSED
  else if response = "SEEKING" then some .SEEKING
  else none

/-- `SoundpadClient.get_play_status`: error markers and unknown payloads
fall back to `STOPPED`. -/
def get_play_status (st : ClientState) (ch : Channel) :
    PlayStatus × ClientState × List String :=
  match send_request_safe st ch "GetPlayStatus()" with
  | (response, st1, tr) =>
    if strStartsWith response "R" then (.STOPPED, st1, tr)
    else
      match playStatusOf response with
      | some ps => (ps, st1, tr)
      | none => (.STOPPED, st1, tr)

end SoundpadClient

/-! ### Runtime dispatch loop (`SoundpadRuntime` in the runtime module) -/

namespace SoundpadRuntime

/-- The `ActionLog` dataclass (the `datetime.now()` timestamp is not
modelled). -/
structure ActionLog where
  action : String
  category : Option String
  success : Bool
  details : String
deriving DecidableEq, Repr

/-- The `self.stats` dictionary (the `start_time` wall-clock entry is not
modelled). -/
structure RuntimeStats where
  sounds_played : Nat
  pauses_triggered : Nat
  errors : Nat
  last_action : Option String
deriving DecidableEq, Repr

/-- The runtime fields the dispatch callbacks touch. -/
structure RuntimeState where
  soundpad_client : Option SoundpadClient.ClientState
  soundpad_connected : Bool
  stats : RuntimeStats
  action_log : List ActionLog
deriving DecidableEq, Repr

/-- `SoundpadRuntime.log_action`: append an entry, keeping only the last
50 (`self.action_log[-50:]`). -/
def log_action (st : RuntimeState) (action : String) (category : Option String)
    (success : Bool) (details : String) : RuntimeState :=
  let log := st.action_log ++
    [{ action := action, category := category, success := success, details := details }]
  { st with action_log := if log.length > 50 then log.drop (log.length - 50) else log }

/-- The two audio-routing flags of the `AppSettings` dataclass read by the
category callback. -/
structure AppSettings where
  play_on_speakers : Bool
  play_on_microphone : Bool
deriving DecidableEq, Repr

/-- The `CategoryConfig` dataclass of `config_manager.py`. -/
structure CategoryConfig where
  soundpad_category_id : Int
  keyboard_shortcut : List String
  folder_path : String
  enabled : Bool
  sound_count : Int
deriving DecidableEq, Repr

/-- The closure produced by `SoundpadRuntime.create_category_callback`,
applied to one hotkey firing.  The second component lists the protocol
commands submitted during the dispatch.  The callback's `except` clause
cannot fire in the embedding because the client pipeline is built on
`send_request_safe`, which already returns every fault as a value. -/
def category_callback (category_name : String) (config : CategoryConfig)
    (app_settings : AppSettings) (ch : SoundpadClient.Channel)
    (st : RuntimeState) : RuntimeState × List String :=
  let st := log_action st "debug" (some category_name) true
    ("Shortcut triggered for '" ++ category_name ++ "'")
  match st.soundpad_client, st.soundpad_connected with
  | none, _ =>
    (log_action st "play_failed" (some category_name) false "Not connected to Soundpad", [])
  | some _, false =>
    (log_action st "play_failed" (some category_name) false "Not connected to Soundpad", [])
  | some client, true =>
    match SoundpadClient.play_random_sound_from_category client ch
      config.soundpad_category_id app_settings.play_on_speakers
      app_settings.play_on_microphone with
    | (success, client1, tr) =>
      let st := { st with soundpad_client := some client1 }
      if success then
        let st := { st with stats := { st.stats with
          sounds_played := st.stats.sounds_played + 1,
          last_action := some ("Played from '" ++ category_name ++ "'") } }
        (log_action st "play_sound" (some category_name) true "", tr)
      else
        let st := { st with stats := { st.stats with errors := st.stats.errors + 1 } }
        (log_action st "play_failed" (some category_name) false "Soundpad command failed", tr)

/-- The closure produced by `SoundpadRuntime.create_pause_callback`.
It performs two exchanges (status read, then toggle); `ch1` and `ch2`
give the channel behaviour for each. -/
def pause_callback (ch1 ch2 : SoundpadClient.Channel) (st : RuntimeState) :
    RuntimeState × List String :=
  let st := log_action st "debug" none true "Pause/resume shortcut triggered"
  match st.soundpad_client, st.soundpad_connected with
  | none, _ =>
    (log_action st "pause_failed" none false "Not connected to Soundpad", [])
  | some _, false =>
    (log_action st "pause_failed" none false "Not connected to Soundpad", [])
  | some client, true =>
    match SoundpadClient.get_play_status client ch1 with
    | (current_status, client1, tr1) =>
      match SoundpadClient.toggle_pause client1 ch2 with
      | (success, client2, tr2) =>
        let st := { st with soundpad_client := some client2 }
        if success then
          let st := { st with stats := { st.stats with
            pauses_triggered := st.stats.pauses_triggered + 1 } }
          if current_status = .PLAYING then
            let st := { st with stats := { st.stats with last_action := some "Paused sound" } }
            (log_action st "pause_sound" none true "", tr1 ++ tr2)
          else if current_status = .PAUSED then
            let st := { st with stats := { st.stats with last_action := some "Resumed sound" } }
            (log_action st "resume_sound" none true "", tr1 ++ tr2)
          else
            let st := { st with stats := { st.stats with
              last_action := some "Toggled pause/resume" } }
            (log_action st "toggle_pause" none true "", tr1 ++ tr2)
        else
          let st := { st with stats := { st.stats with errors := st.stats.errors + 1 } }
          (log_action st "pause_failed" none false "Soundpad command failed", tr1 ++ tr2)

end SoundpadRuntime

/-! ### Hotkey registry (`Soundpad/keyboard_listener_keyboard.py`) -/

namespace KeyboardListener

/-- The `KeyCombination` dataclass (the `callback` function value is not
modelled). -/
structure KeyCombination where
  keys : List String
  description : String
  enabled : Bool
  combo_id : String
deriving DecidableEq, Repr

/-- Listener state: `self.running`, the insertion-ordered
`registered_combinations` dict, and the hotkey strings installed with the
OS backend (`self.hotkey_handlers`). -/
structure ListenerState where
  running : Bool
  registered_combinations : List (String × KeyCombination)
  hotkey_handlers : List String
deriving DecidableEq, Repr

/-- `ValueError` raised by `register_combination`; messages elided. -/
inductive ValErr
  | emptyCombination
  | duplicateId
deriving DecidableEq, Repr

/-- One key of `_keys_to_hotkey_string`: lower/strip, modifier renaming,
function keys and regular keys passed through. -/
def hotkeyPart (key : String) : String :=
  let key_lower := pyStrip (pyLower key)
  if key_lower = "ctrl" ∨ key_lower = "control" then "ctrl"
  else if key_lower = "alt" then "alt"
  else if key_lower = "shift" then "shift"
  else if key_lower = "cmd" ∨ key_lower = "win" ∨ key_lower = "windows" then "windows"
  else key_lower

/-- `KeyboardListener._keys_to_hotkey_string`: note that both the
function-key branch and the regular-key branch of the Python code append
`key_lower` unchanged, so they collapse into the final case of
`hotkeyPart`. -/
def keys_to_hotkey_string (keys : List String) : String :=
  String.intercalate "+" (keys.map hotkeyPart)

/-- `KeyboardListener.register_combination`.  Both `ValueError` raises
happen before any mutation, so the state is returned unchanged alongside
the error. -/
def register_combination (st : ListenerState) (keys : List String)
    (combo_id : Option String) (description : String) :
    Except ValErr String × ListenerState :=
  if keys = [] then (.error .emptyCombination, st)
  else
    let cid := match combo_id with
      | some i => i
      | none => String.intercalate "+" keys
    let hotkey_string := keys_to_hotkey_string keys
    if (st.registered_combinations.lookup cid).isSome then (.error .duplicateId, st)
    else
      let combination : KeyCombination :=
        { keys := keys, description := description, enabled := true, combo_id := cid }
      let st1 := { st with registered_combinations :=
        st.registered_combinations ++ [(cid, combination)] }
      let st2 :=
        if st1.running then
          { st1 with hotkey_handlers := st1.hotkey_handlers ++ [hotkey_string] }
        else st1
      (.ok cid, st2)

end KeyboardListener

/-- The `key_aliases` dict lookup `key_aliases.get(key, key)` of
`normalize_key_combination`, entry for entry. -/
def key_aliases_get (key : String) : String :=
  if key = "control" then "ctrl"
  else if key = "ctrl_l" then "ctrl"
  else if key = "ctrl_r" then "ctrl"
  else if key = "alt_l" then "alt"
  else if key = "alt_r" then "alt"
  else if key = "shift_l" then "shift"
  else if key = "shift_r" then "shift"
  else if key = "cmd_l" then "cmd"
  else if key = "cmd_r" then "cmd"
  else if key = "windows" then "cmd"
  else if key = "win" then "cmd"
  else key

/-- The per-token transformation of the first loop of
`normalize_key_combination`: `key.lower().strip()` then the alias map. -/
def normToken (key : String) : String := key_aliases_get (pyStrip (pyLower key))

/-- The first loop of `normalize_key_combination`: transform each token
and append it when nonempty and not yet present. -/
def dedupAppend (acc : List String) : List String → List String
  | [] => acc
  | key :: rest =>
    let k := normToken key
    if k ≠ "" ∧ k ∉ acc then dedupAppend (acc ++ [k]) rest else dedupAppend acc rest

/-- The fixed `modifier_order` list. -/
def modifier_order : List String := ["ctrl", "alt", "shift", "cmd"]

/-- `normalize_key_combination`: dedup/canonicalize tokens, put modifiers
first in `modifier_order`, sort the remaining tokens alphabetically. -/
def normalize_key_combination (keys : List String) : List String :=
  let normalized := dedupAppend [] keys
  let modifiers := (normalized.filter (fun k => decide (pyLower k ∈ modifier_order))).map pyLower
  let other_keys := normalized.filter (fun k => decide (pyLower k ∉ modifier_order))
  let sorted_modifiers := modifier_order.filter (fun m => decide (m ∈ modifiers))
  sorted_modifiers ++ pySorted other_keys

/-! ### Conflict resolver (`ConfigManager.get_conflicting_shortcuts`) -/

namespace ConfigManager

open SoundpadRuntime (CategoryConfig)

/-- `conflicts[shortcut_key].append(item)` on the insertion-ordered
`defaultdict(list)`. -/
def addConflict (m : List (List String × List String)) (key : List String)
    (item : String) : List (List String × List String) :=
  if (m.lookup key).isSome then
    m.map (fun p => if p.1 = key then (p.1, p.2 ++ [item]) else p)
  else m ++ [(key, [item])]

/-- One step of the category loop of `get_conflicting_shortcuts`:
`if config.keyboard_shortcut: conflicts[tuple(sorted(...))].append(...)`. -/
def conflictStep (m : List (List String × List String))
    (nc : String × CategoryConfig) : List (List String × List String) :=
  if nc.2.keyboard_shortcut ≠ [] then
    addConflict m (pySorted nc.2.keyboard_shortcut) ("category:" ++ nc.1)
  else m

/-- `ConfigManager.get_conflicting_shortcuts` over the full category dict
(`get_all_categories`, enabled or not) and the pause/resume shortcut:
group identifiers by `tuple(sorted(shortcut))` and keep groups with more
than one member. -/
def get_conflicting_shortcuts (categories : List (String × CategoryConfig))
    (stop_shortcut : List String) : List (List String × List String) :=
  let m := categories.foldl conflictStep []
  let m :=
    if stop_shortcut ≠ [] then addConflict m (pySorted stop_shortcut) "pause_resume"
    else m
  m.filter (fun p => decide (1 < p.2.length))

/-- Specification helper: the identifiers the category loop files under a
given canonical (sorted) key, in traversal order. -/
def itemsFor (key : List String) (categories : List (String × CategoryConfig)) :
    List String :=
  categories.filterMap (fun nc =>
    if nc.2.keyboard_shortcut ≠ [] ∧ pySorted nc.2.keyboard_shortcut = key then
      some ("category:" ++ nc.1)
    else none)

/-- Specification helper: combining an accumulated entry with the items a
run of the loop adds under the same key. -/
def mergeLookup (o : Option (List String)) (its : List String) :
    Option (List String) :=
  match o, its with
  | none, [] => none
  | none, its => some its
  | some v, its => some (v ++ its)

end ConfigManager

/-! ### Supporting lemmas -/

theorem lookup_append {α β : Type} [BEq α] (l1 l2 : List (α × β)) (k : α) :
    (l1 ++ l2).lookup k = ((l1.lookup k).or (l2.lookup k)) := by
  induction l1 with
  | nil => simp [List.lookup]
  | cons p l ih =>
    rw [List.cons_append, List.lookup, List.lookup]
    by_cases hk : k == p.1
    · simp [hk]
    · simp only [hk]
      exact ih

theorem lookup_mem {α β : Type} [BEq α] [LawfulBEq α] {k : α} {v : β}
    {m : List (α × β)} (h : m.lookup k = some v) : (k, v) ∈ m := by
  induction m with
  | nil => simp [List.lookup] at h
  | cons p m ih =>
    obtain ⟨p1, p2⟩ := p
    rw [List.lookup] at h
    by_cases hk : k == p1
    · simp only [hk, if_pos] at h
      have hk2 : k = p1 := by simpa [beq_iff_eq] using hk
      subst hk2
      cases h
      exact List.mem_cons_self _ _
    · simp only [hk] at h
      exact List.mem_cons_of_mem _ (ih h)

theorem getLast?_drop {α : Type} (l : List α) (n : Nat) (h : n < l.length) :
    (l.drop n).getLast? = l.getLast? := by
  induction l generalizing n with
  | nil => simp at h
  | cons a l ih =>
    cases n with
    | zero => rfl
    | succ m =>
      simp only [List.drop_succ_cons]
      rw [ih m (by simpa using h)]
      cases l with
      | nil => simp at h
      | cons b t => exact List.getLast?_cons_cons.symm

theorem strStartsWith_append_left (p s q : String) (h : q.data.length ≤ p.data.length) :
    strStartsWith (p ++ s) q = strStartsWith p q := by
  simp only [strStartsWith, strTake, String.data_append,
    List.take_append_of_le_length h]

theorem strTake_append_self (p s : String) : strTake (p ++ s) p.data.length = p := by
  obtain ⟨d⟩ := p
  simp [strTake, String.data_append]

theorem append_left_ne_empty (p s : String) (h : p.data ≠ []) : p ++ s ≠ "" := by
  intro he
  have hd := congrArg String.data he
  rw [String.data_append] at hd
  simp only [List.append_eq_nil] at hd
  exact h hd.1

namespace SoundpadRuntime

theorem log_action_client (st : RuntimeState) (a : String) (c : Option String)
    (s : Bool) (d : String) : (log_action st a c s d).soundpad_client = st.soundpad_client := rfl

theorem log_action_connected (st : RuntimeState) (a : String) (c : Option String)
    (s : Bool) (d : String) : (log_action st a c s d).soundpad_connected = st.soundpad_connected := rfl

theorem log_action_stats (st : RuntimeState) (a : String) (c : Option String)
    (s : Bool) (d : String) : (log_action st a c s d).stats = st.stats := rfl

theorem log_action_getLast (st : RuntimeState) (a : String) (c : Option String)
    (s : Bool) (d : String) :
    (log_action st a c s d).action_log.getLast? =
      some { action := a, category := c, success := s, details := d } := by
  show (if _ then _ else _ : List ActionLog).getLast? = _
  split
  · rw [getLast?_drop _ _ (by simp; omega)]
    simp
  · simp

end SoundpadRuntime

/-! ### Claims about the Protocol Client -/

/-- C2 (counterexample): the claim says the Protocol Client's public
operations never raise, citing `send_request` and `init`; but on a
channel where the pipe is absent, `send_request` raises
`FileNotFoundError` across its boundary. -/
theorem send_request_raises_on_fault_cex :
    (SoundpadClient.send_request ⟨none⟩
      ⟨.fileNotFound, true, .noData, none⟩ "IsAlive()").1 =
      .error .fileNotFound := rfl

/-- C2 (amended): `send_request` and `init` raise typed exceptions on
channel faults, but `send_request_safe` — through which every
higher-level client operation goes — catches every exception class
`send_request` can raise and encodes the fault in the returned result
(empty response, pipe closed), so callers of the safe pipeline are never
killed by a protocol fault: for every state, channel and command,
either the exchange succeeded and its response is returned, or
`send_request` raised some exception and the caller receives `""` with
the pipe reset. -/
theorem send_request_safe_catches_all (st : SoundpadClient.ClientState)
    (ch : SoundpadClient.Channel) (req : String) :
    (∃ resp st1 tr, SoundpadClient.send_request st ch req = (.ok resp, st1, tr) ∧
      SoundpadClient.send_request_safe st ch req = (resp, st1, tr)) ∨
    (∃ e st1 tr, SoundpadClient.send_request st ch req = (.error e, st1, tr) ∧
      SoundpadClient.send_request_safe st ch req = ("", ⟨none⟩, tr)) := by
  rcases hr : SoundpadClient.send_request st ch req with ⟨res, st1, tr⟩
  cases res with
  | ok resp =>
    left
    exact ⟨resp, st1, tr, rfl, by rw [SoundpadClient.send_request_safe, hr]⟩
  | error e =>
    right
    refine ⟨e, st1, tr, rfl, ?_⟩
    cases e <;> (rw [SoundpadClient.send_request_safe, hr]; rfl)

/-- C4: an I/O fault during the write or read of an exchange on an open
pipe makes that call return an `OSError`-style transport failure with the
pipe handle reset to `None`; and a subsequent call on the closed pipe
performs a fresh `open` — if the new channel behaves, the exchange
succeeds outright. -/
theorem send_fault_closes_and_reopens :
    (∀ (st : SoundpadClient.ClientState) (ch : SoundpadClient.Channel)
      (req : String) (fd : Nat), st.pipe = some fd →
      (ch.writeOk = false ∨ ch.read1 = .raises ∨ ch.read1 = .noData ∨
        ch.readRest = none) →
      SoundpadClient.send_request st ch req =
        (.error .osError, ⟨none⟩, [req])) ∧
    (∀ (ch2 : SoundpadClient.Channel) (req2 : String) (fd2 : Nat) (c : Char)
      (rest : String), ch2.openOutcome = .ok fd2 → ch2.writeOk = true →
      ch2.read1 = .byte c → ch2.readRest = some rest →
      SoundpadClient.send_request ⟨none⟩ ch2 req2 =
        (.ok (rstripNull ⟨c :: rest.data⟩), ⟨some fd2⟩, [req2])) := by
  constructor
  · intro st ch req fd hfd hfault
    obtain ⟨w, r1, rr⟩ : ∃ w r1 rr, ch = ⟨ch.openOutcome, w, r1, rr⟩ :=
      ⟨ch.writeOk, ch.read1, ch.readRest, rfl⟩
    rw [SoundpadClient.send_request]
    have hinit : SoundpadClient.init st ch = .ok st := by
      rw [SoundpadClient.init, hfd]
    rw [hinit]
    rcases hfault with hw | hr | hr | hrr
    · rw [hw]
      rfl
    · rw [hr]
      cases hcw : ch.writeOk <;> rfl
    · rw [hr]
      cases hcw : ch.writeOk <;> rfl
    · cases hcw : ch.writeOk
      · rfl
      · cases hr1 : ch.read1 with
        | byte c => rw [hrr]; rfl
        | noData => rfl
        | raises => rfl
  · intro ch2 req2 fd2 c rest ho hw hr hrr
    obtain ⟨o, w, r1, rr⟩ := ch2
    simp only at ho hw hr hrr
    subst ho
    subst hw
    subst hr
    subst hrr
    rfl

/-- Witness for C4: a write failure on an open pipe closes it; the next
call on the closed pipe reopens and completes. -/
theorem send_fault_closes_and_reopens_witness :
    SoundpadClient.send_request ⟨some 3⟩
      ⟨.ok 3, false, .noData, none⟩ "IsAlive()" =
      (.error .osError, ⟨none⟩, ["IsAlive()"]) ∧
    SoundpadClient.send_request ⟨none⟩
      ⟨.ok 7, true, .byte 'R', some "-200"⟩ "IsAlive()" =
      (.ok "R-200", ⟨some 7⟩, ["IsAlive()"]) := by
  constructor
  · exact send_fault_closes_and_reopens.1 ⟨some 3⟩ _ "IsAlive()" 3 rfl (Or.inl rfl)
  · have h := send_fault_closes_and_reopens.2 ⟨.ok 7, true, .byte 'R', some "-200"⟩
      "IsAlive()" 7 'R' "-200" rfl rfl rfl rfl
    rw [h]
    rfl

theorem strStartsWith_self_append (p s : String) : strStartsWith (p ++ s) p = true := by
  rw [strStartsWith, strTake_append_self]
  exact beq_self_eq_true p

/-- Classification of a response formed by a 5-character marker followed
by arbitrary payload is decided entirely by the marker. -/
theorem classify_code (p s : String) (h5 : p.data.length = 5) (hne : p.data ≠ []) :
    SoundpadClient.classify (p ++ s) =
      (if strStartsWith p "R-200" = true then .success
       else if strStartsWith p "R-" = true then
         (if p = "R-400" then .badRequest
          else if p = "R-404" then .notFound
          else if p = "R-403" then .forbidden
          else if p = "R-500" then .serverError
          else if p = "R-503" then .serviceUnavailable
          else .unknown)
       else .unexpected) := by
  have hTake : strTake (p ++ s) 5 = p := by
    rw [show (5 : Nat) = p.data.length from h5.symm, strTake_append_self]
  have hSW200 : strStartsWith (p ++ s) "R-200" = strStartsWith p "R-200" :=
    strStartsWith_append_left _ _ _ (by rw [h5]; decide)
  have hSWrd : strStartsWith (p ++ s) "R-" = strStartsWith p "R-" :=
    strStartsWith_append_left _ _ _ (by rw [h5]; decide)
  simp only [SoundpadClient.classify, SoundpadClient.is_success]
  rw [hSW200, hSWrd, hTake, if_neg (show ¬(p ++ s) = "" from append_left_ne_empty p s hne)]

/-- C5: responses beginning with `"R-200"` classify as success; the five
error markers map to their kinds; any other 5-character `"R-"` marker
classifies as unknown; the empty response classifies as no-response. -/
theorem classify_responses :
    (∀ s : String, SoundpadClient.classify ("R-200" ++ s) = .success) ∧
    (∀ s : String, SoundpadClient.classify ("R-404" ++ s) = .notFound) ∧
    (∀ s : String, SoundpadClient.classify ("R-400" ++ s) = .badRequest) ∧
    (∀ s : String, SoundpadClient.classify ("R-403" ++ s) = .forbidden) ∧
    (∀ s : String, SoundpadClient.classify ("R-500" ++ s) = .serverError) ∧
    (∀ s : String, SoundpadClient.classify ("R-503" ++ s) = .serviceUnavailable) ∧
    SoundpadClient.classify "" = .noResponse ∧
    (∀ (code s : String), code.data.length = 5 → strStartsWith code "R-" = true →
      strStartsWith code "R-200" = false →
      code ∉ (["R-400", "R-404", "R-403", "R-500", "R-503"] : List String) →
      SoundpadClient.classify (code ++ s) = .unknown) := by
  refine ⟨?_, ?_, ?_, ?_, ?_, ?_, ?_, ?_⟩
  · intro s
    rw [classify_code _ s (by decide) (by decide)]
    decide
  · intro s
    rw [classify_code _ s (by decide) (by decide)]
    decide
  · intro s
    rw [classify_code _ s (by decide) (by decide)]
    decide
  · intro s
    rw [classify_code _ s (by decide) (by decide)]
    decide
  · intro s
    rw [classify_code _ s (by decide) (by decide)]
    decide
  · intro s
    rw [classify_code _ s (by decide) (by decide)]
    decide
  · decide
  · intro code s h5 hrd hs200 hnotin
    have hne : code.data ≠ [] := by
      intro h
      rw [h] at h5
      simp at h5
    rw [classify_code code s h5 hne]
    simp only [List.mem_cons, List.mem_singleton] at hnotin
    push_neg at hnotin
    obtain ⟨n1, n2, n3, n4, n5⟩ := hnotin
    simp [hs200, hrd, n1, n2, n3, n4, n5]

/-- Witness for C5: the generic error-marker clause at `"R-999"`. -/
theorem classify_responses_witness :
    SoundpadClient.classify ("R-999" ++ "xyz") = .unknown :=
  classify_responses.2.2.2.2.2.2.2 "R-999" "xyz" (by decide) (by decide) (by decide)
    (by decide)

theorem handle_numeric_fst (st : SoundpadClient.ClientState)
    (ch : SoundpadClient.Channel) (req : String) :
    (SoundpadClient.handle_numeric_response st ch req).1 =
      (if (SoundpadClient.send_request_safe st ch req).1 = "" then -1
       else if strStartsWith (SoundpadClient.send_request_safe st ch req).1 "R" = true then -1
       else
         match pyInt (SoundpadClient.send_request_safe st ch req).1 with
         | some n => n
         | none => -1) := by
  rcases hs : SoundpadClient.send_request_safe st ch req with ⟨resp, st1, tr⟩
  rw [SoundpadClient.handle_numeric_response, hs]
  simp only
  by_cases h1 : resp = ""
  · simp [h1]
  · by_cases h2 : strStartsWith resp "R" = true
    · simp [h1, h2]
    · cases hpi : pyInt resp <;> simp [h1, h2, hpi]

/-- C10: `get_volume` never returns a negative value; on every failed
volume query (empty response, error marker, or unparsable payload) the
`-1` sentinel of the numeric-response handler is clamped to `0`; and a
legitimate `"0"` response also yields `0`, so the two are
indistinguishable to the caller. -/
theorem get_volume_clamped :
    (∀ (st : SoundpadClient.ClientState) (ch : SoundpadClient.Channel),
      0 ≤ (SoundpadClient.get_volume st ch).1) ∧
    (∀ (st : SoundpadClient.ClientState) (ch : SoundpadClient.Channel),
      ((SoundpadClient.send_request_safe st ch "GetVolume()").1 = "" ∨
       strStartsWith (SoundpadClient.send_request_safe st ch "GetVolume()").1 "R" = true ∨
       pyInt (SoundpadClient.send_request_safe st ch "GetVolume()").1 = none) →
      (SoundpadClient.get_volume st ch).1 = 0) ∧
    (∀ (st : SoundpadClient.ClientState) (ch : SoundpadClient.Channel),
      (SoundpadClient.send_request_safe st ch "GetVolume()").1 = "0" →
      (SoundpadClient.get_volume st ch).1 = 0) := by
  have hgv : ∀ st ch, (SoundpadClient.get_volume st ch).1 =
      max 0 (SoundpadClient.handle_numeric_response st ch "GetVolume()").1 :=
    fun _ _ => rfl
  refine ⟨?_, ?_, ?_⟩
  · intro st ch
    rw [hgv]
    exact le_max_left 0 _
  · intro st ch hfail
    rw [hgv, handle_numeric_fst]
    by_cases he : (SoundpadClient.send_request_safe st ch "GetVolume()").1 = ""
    · rw [if_pos he]
      rfl
    · rw [if_neg he]
      by_cases hr : strStartsWith (SoundpadClient.send_request_safe st ch "GetVolume()").1 "R" = true
      · rw [if_pos hr]
        rfl
      · rw [if_neg hr]
        rcases hfail with h | h | h
        · exact absurd h he
        · exact absurd h hr
        · rw [h]
          rfl
  · intro st ch h0
    rw [hgv, handle_numeric_fst, h0]
    decide

/-- Witness for C10: a channel answering `"R-404"` yields volume `0`, and
so does a channel answering a genuine `"0"`. -/
theorem get_volume_clamped_witness :
    (SoundpadClient.get_volume ⟨none⟩ ⟨.ok 1, true, .byte 'R', some "-404"⟩).1 = 0 ∧
    (SoundpadClient.get_volume ⟨none⟩ ⟨.ok 1, true, .byte '0', some ""⟩).1 = 0 := by
  constructor
  · exact get_volume_clamped.2.1 ⟨none⟩ ⟨.ok 1, true, .byte 'R', some "-404"⟩
      (Or.inr (Or.inl (by decide)))
  · exact get_volume_clamped.2.2 ⟨none⟩ ⟨.ok 1, true, .byte '0', some ""⟩ (by decide)

theorem send_request_trace (st : SoundpadClient.ClientState)
    (ch : SoundpadClient.Channel) (req : String) :
    (SoundpadClient.send_request st ch req).2.2 = [req] := by
  rw [SoundpadClient.send_request]
  cases SoundpadClient.init st ch with
  | error e => rfl
  | ok st1 =>
    cases hw : ch.writeOk
    · rfl
    · cases hr1 : ch.read1 <;> try rfl
      cases hrr : ch.readRest <;> rfl

theorem send_request_safe_trace (st : SoundpadClient.ClientState)
    (ch : SoundpadClient.Channel) (req : String) :
    (SoundpadClient.send_request_safe st ch req).2.2 = [req] := by
  have h := send_request_trace st ch req
  rcases hs : SoundpadClient.send_request st ch req with ⟨res, st1, tr⟩
  rw [hs] at h
  simp only at h
  rw [SoundpadClient.send_request_safe, hs]
  cases res with
  | ok r => exact h
  | error e => cases e <;> exact h

theorem play_random_fst (client : SoundpadClient.ClientState)
    (ch : SoundpadClient.Channel) (cid : Int) (spk mic : Bool) :
    (SoundpadClient.play_random_sound_from_category client ch cid spk mic).1 =
      SoundpadClient.is_success (SoundpadClient.send_request_safe client ch
        ("DoPlayRandomSoundFromCategory(" ++ toString cid ++ ", " ++
          pyBoolStr spk ++ ", " ++ pyBoolStr mic ++ ")")).1 := rfl

theorem play_random_trace (client : SoundpadClient.ClientState)
    (ch : SoundpadClient.Channel) (cid : Int) (spk mic : Bool) :
    (SoundpadClient.play_random_sound_from_category client ch cid spk mic).2.2 =
      ["DoPlayRandomSoundFromCategory(" ++ toString cid ++ ", " ++
        pyBoolStr spk ++ ", " ++ pyBoolStr mic ++ ")"] :=
  send_request_safe_trace _ _ _

/-! ### Claims about the Runtime Dispatch Loop -/

/-- C9: with a client present and the connected flag set, dispatching a
category-5 action submits exactly the one
`DoPlayRandomSoundFromCategory(5, …)` command; a success response bumps
`sounds_played` by exactly 1 leaving `errors` untouched, an error
response bumps `errors` by exactly 1 leaving `sounds_played` untouched
(and the callback is a total function, so no exception escapes). -/
theorem category_dispatch_counts (st : SoundpadRuntime.RuntimeState)
    (client : SoundpadClient.ClientState) (cfg : SoundpadRuntime.CategoryConfig)
    (settings : SoundpadRuntime.AppSettings) (ch : SoundpadClient.Channel)
    (name : String) (h1 : st.soundpad_client = some client)
    (h2 : st.soundpad_connected = true) (h5 : cfg.soundpad_category_id = 5) :
    ((SoundpadRuntime.category_callback name cfg settings ch st).2 =
      ["DoPlayRandomSoundFromCategory(" ++ toString (5 : Int) ++ ", " ++
        pyBoolStr settings.play_on_speakers ++ ", " ++
        pyBoolStr settings.play_on_microphone ++ ")"]) ∧
    (SoundpadClient.is_success (SoundpadClient.send_request_safe client ch
        ("DoPlayRandomSoundFromCategory(" ++ toString (5 : Int) ++ ", " ++
          pyBoolStr settings.play_on_speakers ++ ", " ++
          pyBoolStr settings.play_on_microphone ++ ")")).1 = true →
      (SoundpadRuntime.category_callback name cfg settings ch st).1.stats.sounds_played =
        st.stats.sounds_played + 1 ∧
      (SoundpadRuntime.category_callback name cfg settings ch st).1.stats.errors =
        st.stats.errors) ∧
    (SoundpadClient.is_success (SoundpadClient.send_request_safe client ch
        ("DoPlayRandomSoundFromCategory(" ++ toString (5 : Int) ++ ", " ++
          pyBoolStr settings.play_on_speakers ++ ", " ++
          pyBoolStr settings.play_on_microphone ++ ")")).1 = false →
      (SoundpadRuntime.category_callback name cfg settings ch st).1.stats.errors =
        st.stats.errors + 1 ∧
      (SoundpadRuntime.category_callback name cfg settings ch st).1.stats.sounds_played =
        st.stats.sounds_played) := by
  rw [show (5 : Int) = cfg.soundpad_category_id from h5.symm]
  obtain ⟨sc, conn, stats, alog⟩ := st
  have h1x : sc = some client := h1
  have h2x : conn = true := h2
  subst h1x
  subst h2x
  rcases hp : SoundpadClient.play_random_sound_from_category client ch
      cfg.soundpad_category_id settings.play_on_speakers settings.play_on_microphone
    with ⟨succ, client1, tr⟩
  have hfst := play_random_fst client ch cfg.soundpad_category_id
    settings.play_on_speakers settings.play_on_microphone
  have htr := play_random_trace client ch cfg.soundpad_category_id
    settings.play_on_speakers settings.play_on_microphone
  rw [hp] at hfst htr
  simp only at hfst htr
  simp only [SoundpadRuntime.category_callback]
  rw [SoundpadRuntime.log_action_client, SoundpadRuntime.log_action_connected]
  simp only [hp]
  cases succ with
  | true =>
    exact ⟨htr, fun _ => ⟨rfl, rfl⟩, fun hf => absurd hfst.symm (by rw [hf]; decide)⟩
  | false =>
    exact ⟨htr, fun ht => absurd hfst.symm (by rw [ht]; decide), fun _ => ⟨rfl, rfl⟩⟩

/-- Witness for C9: concrete success and error channels. -/
theorem category_dispatch_counts_witness :
    ((SoundpadRuntime.category_callback "mycat" ⟨5, ["alt", "1"], "", true, 0⟩
        ⟨true, true⟩ ⟨.ok 1, true, .byte 'R', some "-200"⟩
        ⟨some ⟨none⟩, true, ⟨7, 2, 3, none⟩, []⟩).1.stats.sounds_played = 8) ∧
    ((SoundpadRuntime.category_callback "mycat" ⟨5, ["alt", "1"], "", true, 0⟩
        ⟨true, true⟩ ⟨.ok 1, true, .byte 'R', some "-404"⟩
        ⟨some ⟨none⟩, true, ⟨7, 2, 3, none⟩, []⟩).1.stats.errors = 4) := by
  constructor
  · exact ((category_dispatch_counts ⟨some ⟨none⟩, true, ⟨7, 2, 3, none⟩, []⟩ ⟨none⟩
      ⟨5, ["alt", "1"], "", true, 0⟩ ⟨true, true⟩ ⟨.ok 1, true, .byte 'R', some "-200"⟩
      "mycat" rfl rfl rfl).2.1 (by decide)).1
  · exact ((category_dispatch_counts ⟨some ⟨none⟩, true, ⟨7, 2, 3, none⟩, []⟩ ⟨none⟩
      ⟨5, ["alt", "1"], "", true, 0⟩ ⟨true, true⟩ ⟨.ok 1, true, .byte 'R', some "-404"⟩
      "mycat" rfl rfl rfl).2.2 (by decide)).1

/-- C1 (counterexample): with a client object present but the cached
liveness flag stale at `false`, the category callback issues no protocol
command at all — even on a channel that would have answered `"R-200"` —
so a stale disconnected flag does prevent the attempt. -/
theorem category_callback_blocked_cex :
    (SoundpadRuntime.category_callback "test" ⟨5, ["ctrl", "1"], "", true, 0⟩
        ⟨true, true⟩ ⟨.ok 1, true, .byte 'R', some "-200"⟩
        ⟨some ⟨none⟩, false, ⟨0, 0, 0, none⟩, []⟩).2 = [] ∧
    (SoundpadClient.send_request_safe ⟨none⟩ ⟨.ok 1, true, .byte 'R', some "-200"⟩
        "DoPlayRandomSoundFromCategory(5, true, true)").1 = "R-200" := by
  constructor <;> rfl

/-- C1 (amended): the dispatch callbacks attempt the Protocol Client call
only when a client object exists and the cached connected flag is true;
when the flag is false (even if stale) the dispatch is skipped — no
protocol command is submitted, the stats are untouched and a
`play_failed`/`pause_failed` entry is logged; when the flag is true and a
client exists, the category callback submits exactly its play command. -/
theorem dispatch_gated_by_flag :
    (∀ (name : String) (cfg : SoundpadRuntime.CategoryConfig)
       (settings : SoundpadRuntime.AppSettings) (ch : SoundpadClient.Channel)
       (st : SoundpadRuntime.RuntimeState), st.soundpad_connected = false →
      (SoundpadRuntime.category_callback name cfg settings ch st).2 = [] ∧
      (SoundpadRuntime.category_callback name cfg settings ch st).1.stats = st.stats ∧
      (SoundpadRuntime.category_callback name cfg settings ch st).1.action_log.getLast? =
        some ⟨"play_failed", some name, false, "Not connected to Soundpad"⟩) ∧
    (∀ (ch1 ch2 : SoundpadClient.Channel) (st : SoundpadRuntime.RuntimeState),
      st.soundpad_connected = false →
      (SoundpadRuntime.pause_callback ch1 ch2 st).2 = [] ∧
      (SoundpadRuntime.pause_callback ch1 ch2 st).1.stats = st.stats ∧
      (SoundpadRuntime.pause_callback ch1 ch2 st).1.action_log.getLast? =
        some ⟨"pause_failed", none, false, "Not connected to Soundpad"⟩) ∧
    (∀ (name : String) (cfg : SoundpadRuntime.CategoryConfig)
       (settings : SoundpadRuntime.AppSettings) (ch : SoundpadClient.Channel)
       (st : SoundpadRuntime.RuntimeState) (client : SoundpadClient.ClientState),
      st.soundpad_client = some client → st.soundpad_connected = true →
      (SoundpadRuntime.category_callback name cfg settings ch st).2 =
        ["DoPlayRandomSoundFromCategory(" ++ toString cfg.soundpad_category_id ++ ", " ++
          pyBoolStr settings.play_on_speakers ++ ", " ++
          pyBoolStr settings.play_on_microphone ++ ")"]) := by
  refine ⟨?_, ?_, ?_⟩
  · intro name cfg settings ch st hoff
    obtain ⟨sc, conn, stats, alog⟩ := st
    have hx : conn = false := hoff
    subst hx
    cases sc with
    | none => exact ⟨rfl, rfl, SoundpadRuntime.log_action_getLast _ _ _ _ _⟩
    | some c => exact ⟨rfl, rfl, SoundpadRuntime.log_action_getLast _ _ _ _ _⟩
  · intro ch1 ch2 st hoff
    obtain ⟨sc, conn, stats, alog⟩ := st
    have hx : conn = false := hoff
    subst hx
    cases sc with
    | none => exact ⟨rfl, rfl, SoundpadRuntime.log_action_getLast _ _ _ _ _⟩
    | some c => exact ⟨rfl, rfl, SoundpadRuntime.log_action_getLast _ _ _ _ _⟩
  · intro name cfg settings ch st client h1 h2
    obtain ⟨sc, conn, stats, alog⟩ := st
    have h1x : sc = some client := h1
    have h2x : conn = true := h2
    subst h1x
    subst h2x
    rcases hp : SoundpadClient.play_random_sound_from_category client ch
        cfg.soundpad_category_id settings.play_on_speakers settings.play_on_microphone
      with ⟨succ, client1, tr⟩
    have htr := play_random_trace client ch cfg.soundpad_category_id
      settings.play_on_speakers settings.play_on_microphone
    rw [hp] at htr
    simp only at htr
    simp only [SoundpadRuntime.category_callback]
    rw [SoundpadRuntime.log_action_client, SoundpadRuntime.log_action_connected]
    simp only [hp]
    cases succ <;> exact htr

/-- Witness for C1 (amended): blocked category and pause dispatches on a
stale flag, and an attempted dispatch when connected. -/
theorem dispatch_gated_by_flag_witness :
    (SoundpadRuntime.category_callback "w" ⟨2, ["a"], "", true, 0⟩ ⟨true, true⟩
        ⟨.ok 1, true, .byte 'R', some "-200"⟩
        ⟨some ⟨none⟩, false, ⟨0, 0, 0, none⟩, []⟩).2 = [] ∧
    (SoundpadRuntime.pause_callback ⟨.ok 1, true, .byte 'R', some "-200"⟩
        ⟨.ok 1, true, .byte 'R', some "-200"⟩
        ⟨some ⟨none⟩, false, ⟨0, 0, 0, none⟩, []⟩).2 = [] ∧
    (SoundpadRuntime.category_callback "w" ⟨2, ["a"], "", true, 0⟩ ⟨true, true⟩
        ⟨.ok 1, true, .byte 'R', some "-200"⟩
        ⟨some ⟨none⟩, true, ⟨0, 0, 0, none⟩, []⟩).2 =
      ["DoPlayRandomSoundFromCategory(" ++ toString (2 : Int) ++ ", " ++
        pyBoolStr true ++ ", " ++ pyBoolStr true ++ ")"] :=
  ⟨(dispatch_gated_by_flag.1 "w" ⟨2, ["a"], "", true, 0⟩ ⟨true, true⟩ _ _ rfl).1,
   (dispatch_gated_by_flag.2.1 _ _ _ rfl).1,
   dispatch_gated_by_flag.2.2 "w" ⟨2, ["a"], "", true, 0⟩ ⟨true, true⟩ _ _ ⟨none⟩ rfl rfl⟩

/-! ### Claims about the Hotkey Registry -/

/-- C8: a successful `register_combination` stores the binding under its
id; calling it again with the same id fails with the duplicate-id
`ValueError` and returns the registry state unchanged (the raise happens
before any mutation), so only the first binding is retained; an empty key
combination is likewise rejected with a `ValueError`, leaving the state
unchanged. -/
theorem register_duplicate_rejected :
    (∀ (st st1 : KeyboardListener.ListenerState) (keys : List String)
       (cid d id1 : String),
      KeyboardListener.register_combination st keys (some cid) d = (.ok id1, st1) →
      (st1.registered_combinations.lookup cid =
        some ⟨keys, d, true, cid⟩) ∧
      (∀ (keys2 : List String) (d2 : String), keys2 ≠ [] →
        KeyboardListener.register_combination st1 keys2 (some cid) d2 =
          (.error .duplicateId, st1))) ∧
    (∀ (st : KeyboardListener.ListenerState) (cid : Option String) (d : String),
      KeyboardListener.register_combination st [] cid d =
        (.error .emptyCombination, st)) := by
  constructor
  · intro st st1 keys cid d id1 h
    rw [KeyboardListener.register_combination] at h
    by_cases hk : keys = []
    · rw [if_pos hk] at h
      simp at h
    · rw [if_neg hk] at h
      simp only at h
      by_cases hdup : (st.registered_combinations.lookup cid).isSome
      · rw [if_pos hdup] at h
        simp at h
      · rw [if_neg hdup] at h
        have hnone : st.registered_combinations.lookup cid = none := by
          cases hl : st.registered_combinations.lookup cid
          · rfl
          · rw [hl] at hdup
            simp at hdup
        rw [Prod.mk.injEq] at h
        obtain ⟨-, h2⟩ := h
        have hst1 : st1.registered_combinations =
            st.registered_combinations ++ [(cid, ⟨keys, d, true, cid⟩)] := by
          subst h2
          by_cases hr : st.running = true
          · simp [hr]
          · simp [hr]
        have hlook : st1.registered_combinations.lookup cid =
            some ⟨keys, d, true, cid⟩ := by
          rw [hst1, lookup_append, hnone]
          simp [List.lookup]
        refine ⟨hlook, ?_⟩
        intro keys2 d2 hk2
        rw [KeyboardListener.register_combination, if_neg hk2]
        simp only
        rw [if_pos (by rw [hlook]; rfl)]
  · intro st cid d
    rfl

/-- Witness for C8: registering `alt+1` under id `"x"` succeeds; a second
registration under id `"x"` is rejected with the state unchanged, and an
empty combination is rejected. -/
theorem register_duplicate_rejected_witness :
    (KeyboardListener.register_combination
        ⟨false, [("x", ⟨["alt", "1"], "", true, "x"⟩)], []⟩ ["b"] (some "x") "" =
      (.error .duplicateId, ⟨false, [("x", ⟨["alt", "1"], "", true, "x"⟩)], []⟩)) ∧
    (KeyboardListener.register_combination ⟨false, [], []⟩ [] (some "y") "" =
      (.error .emptyCombination, ⟨false, [], []⟩)) :=
  ⟨(register_duplicate_rejected.1 ⟨false, [], []⟩
      ⟨false, [("x", ⟨["alt", "1"], "", true, "x"⟩)], []⟩ ["alt", "1"] "x" "" "x"
      rfl).2 ["b"] "" (by decide),
   register_duplicate_rejected.2 ⟨false, [], []⟩ (some "y") ""⟩

/-! ### Idempotence of key-combination normalization (claim C7) -/

theorem charOfNat_toNat (n : Nat) (h1 : 65 ≤ n) (h2 : n ≤ 90) :
    (Char.ofNat (n + 32)).toNat = n + 32 := by
  have hv : (n + 32).isValidChar := Or.inl (by omega)
  rw [Char.ofNat, dif_pos hv]
  rfl

theorem charLower_charLower (c : Char) : charLower (charLower c) = charLower c := by
  unfold charLower
  by_cases h : 65 ≤ c.toNat ∧ c.toNat ≤ 90
  · rw [if_pos h, if_neg]
    rw [charOfNat_toNat c.toNat h.1 h.2]
    omega
  · rw [if_neg h, if_neg h]

theorem map_fixed_of_eq {α : Type} {f : α → α} :
    ∀ {l : List α}, (∀ a ∈ l, f a = a) → l.map f = l := by
  intro l
  induction l with
  | nil => intro _; rfl
  | cons a t ih =>
    intro h
    rw [List.map_cons, h a (List.mem_cons_self _ _),
      ih (fun x hx => h x (List.mem_cons_of_mem _ hx))]

theorem map_charLower_fixed {l : List Char} (h : ∀ c ∈ l, charLower c = c) :
    l.map charLower = l :=
  map_fixed_of_eq h

theorem pyLower_chars_fixed (s : String) : ∀ c ∈ (pyLower s).data, charLower c = c := by
  intro c hc
  rw [pyLower] at hc
  simp only [List.mem_map] at hc
  obtain ⟨x, -, hx⟩ := hc
  rw [← hx]
  exact charLower_charLower x

theorem pyLower_of_chars_fixed {s : String} (h : ∀ c ∈ s.data, charLower c = c) :
    pyLower s = s := by
  obtain ⟨d⟩ := s
  rw [pyLower]
  exact congrArg String.mk (map_charLower_fixed h)

theorem mem_stripList {c : Char} {l : List Char} (h : c ∈ stripList l) : c ∈ l := by
  rw [stripList, List.mem_reverse] at h
  have h2 := (List.dropWhile_suffix isWS).subset h
  rw [List.mem_reverse] at h2
  exact (List.dropWhile_suffix isWS).subset h2

theorem dropWhile_dropWhile (p : Char → Bool) (l : List Char) :
    List.dropWhile p (List.dropWhile p l) = List.dropWhile p l := by
  induction l with
  | nil => rfl
  | cons a t ih =>
    by_cases h : p a
    · rw [List.dropWhile_cons_of_pos h, ih]
    · rw [List.dropWhile_cons_of_neg h, List.dropWhile_cons_of_neg h]

theorem dropWhile_append_singleton (p : Char → Bool) (a : Char) (h : ¬ p a = true)
    (xs : List Char) :
    List.dropWhile p (xs ++ [a]) = List.dropWhile p xs ++ [a] := by
  induction xs with
  | nil =>
    rw [List.nil_append, List.dropWhile_cons_of_neg h]
    rfl
  | cons x xs ih =>
    by_cases hx : p x
    · rw [List.cons_append, List.dropWhile_cons_of_pos hx,
        List.dropWhile_cons_of_pos hx, ih]
    · rw [List.cons_append, List.dropWhile_cons_of_neg hx,
        List.dropWhile_cons_of_neg hx, List.cons_append]

theorem stripList_eq_dropTrailing (l : List Char) :
    stripList l = dropTrailing (l.dropWhile isWS) := rfl

theorem dropTrailing_dropTrailing (l : List Char) :
    dropTrailing (dropTrailing l) = dropTrailing l := by
  unfold dropTrailing
  rw [List.reverse_reverse, dropWhile_dropWhile]

theorem dropWhile_eq_self_of_dropTrailing {l : List Char}
    (h : List.dropWhile isWS l = l) :
    List.dropWhile isWS (dropTrailing l) = dropTrailing l := by
  cases l with
  | nil => rfl
  | cons a t =>
    have ha : ¬ isWS a = true := by
      intro hws
      rw [List.dropWhile_cons_of_pos hws] at h
      have := congrArg List.length h
      have hle : (t.dropWhile isWS).length ≤ t.length :=
        (List.dropWhile_suffix isWS).length_le
      simp at this
      omega
    rw [dropTrailing, List.reverse_cons, dropWhile_append_singleton isWS a ha,
      List.reverse_append]
    exact List.dropWhile_cons_of_neg ha

theorem stripList_stripList (l : List Char) :
    stripList (stripList l) = stripList l := by
  rw [stripList_eq_dropTrailing l, stripList_eq_dropTrailing,
    dropWhile_eq_self_of_dropTrailing (dropWhile_dropWhile isWS l),
    dropTrailing_dropTrailing]

theorem pyStrip_pyStrip (s : String) : pyStrip (pyStrip s) = pyStrip s :=
  congrArg String.mk (stripList_stripList s.data)

theorem pyStrip_of_lower_fixed {s : String} (h : ∀ c ∈ s.data, charLower c = c) :
    ∀ c ∈ (pyStrip s).data, charLower c = c :=
  fun c hc => h c (mem_stripList hc)

set_option maxHeartbeats 1000000 in
theorem key_aliases_get_cases (s : String) :
    key_aliases_get s = s ∨
      key_aliases_get s ∈ (["ctrl", "alt", "shift", "cmd"] : List String) := by
  unfold key_aliases_get
  split_ifs <;> first
  | (left; rfl)
  | (right; decide)

theorem canonical_token_fixed :
    ∀ v ∈ (["ctrl", "alt", "shift", "cmd"] : List String),
      pyStrip (pyLower v) = v ∧ key_aliases_get v = v := by decide

theorem normToken_fixed (k : String) : normToken (normToken k) = normToken k := by
  simp only [normToken]
  have hufix : ∀ c ∈ (pyStrip (pyLower k)).data, charLower c = c :=
    pyStrip_of_lower_fixed (pyLower_chars_fixed k)
  have hulow : pyLower (pyStrip (pyLower k)) = pyStrip (pyLower k) :=
    pyLower_of_chars_fixed hufix
  have hustrip : pyStrip (pyStrip (pyLower k)) = pyStrip (pyLower k) :=
    pyStrip_pyStrip (pyLower k)
  rcases key_aliases_get_cases (pyStrip (pyLower k)) with h | h
  · rw [h, hulow, hustrip]
    exact h
  · have hv := canonical_token_fixed _ h
    rw [hv.1, hv.2]

theorem dedupAppend_elem_spec {keys : List String} : ∀ {acc : List String},
    (∀ y ∈ acc, normToken y = y ∧ y ≠ "") →
    ∀ x ∈ dedupAppend acc keys, normToken x = x ∧ x ≠ "" := by
  induction keys with
  | nil =>
    intro acc hacc x hx
    exact hacc x hx
  | cons k ks ih =>
    intro acc hacc x hx
    simp only [dedupAppend] at hx
    by_cases hc : normToken k ≠ "" ∧ normToken k ∉ acc
    · rw [if_pos hc] at hx
      refine ih ?_ x hx
      intro y hy
      rcases List.mem_append.mp hy with h | h
      · exact hacc y h
      · simp only [List.mem_singleton] at h
        subst h
        exact ⟨normToken_fixed k, hc.1⟩
    · rw [if_neg hc] at hx
      exact ih hacc x hx

theorem dedupAppend_nodup {keys : List String} : ∀ {acc : List String},
    acc.Nodup → (dedupAppend acc keys).Nodup := by
  induction keys with
  | nil =>
    intro acc hacc
    exact hacc
  | cons k ks ih =>
    intro acc hacc
    simp only [dedupAppend]
    by_cases hc : normToken k ≠ "" ∧ normToken k ∉ acc
    · rw [if_pos hc]
      refine ih (List.nodup_append.mpr ⟨hacc, List.nodup_singleton _, ?_⟩)
      intro a ha
      simp only [List.mem_singleton]
      intro he
      subst he
      exact hc.2 ha
    · rw [if_neg hc]
      exact ih hacc

theorem dedupAppend_of_fixed {keys : List String}
    (hkeys : ∀ x ∈ keys, normToken x = x ∧ x ≠ "") (hnd : keys.Nodup) :
    ∀ (acc : List String), (∀ x ∈ keys, x ∉ acc) →
    dedupAppend acc keys = acc ++ keys := by
  induction keys with
  | nil =>
    intro acc _
    simp [dedupAppend]
  | cons k ks ih =>
    intro acc hdisj
    have hk := hkeys k (List.mem_cons_self _ _)
    simp only [dedupAppend, hk.1]
    rw [if_pos ⟨hk.2, hdisj k (List.mem_cons_self _ _)⟩]
    rw [ih (fun x hx => hkeys x (List.mem_cons_of_mem _ hx)) hnd.of_cons _]
    · simp
    · intro x hx
      simp only [List.mem_append, List.mem_singleton]
      rintro (h | h)
      · exact hdisj x (List.mem_cons_of_mem _ hx) h
      · subst h
        exact (List.nodup_cons.mp hnd).1 hx

theorem normalize_pass2 (B : List String)
    (hBspec : ∀ x ∈ B, normToken x = x ∧ x ≠ "") (hBnd : B.Nodup) :
    normalize_key_combination
        ((modifier_order.filter (fun m => decide (m ∈
            (B.filter (fun k => decide (pyLower k ∈ modifier_order))).map pyLower))) ++
          pySorted (B.filter (fun k => decide (pyLower k ∉ modifier_order)))) =
      (modifier_order.filter (fun m => decide (m ∈
          (B.filter (fun k => decide (pyLower k ∈ modifier_order))).map pyLower))) ++
        pySorted (B.filter (fun k => decide (pyLower k ∉ modifier_order))) := by
  have hmodLower : ∀ m ∈ modifier_order, pyLower m = m := by decide
  have hmodTok : ∀ m ∈ modifier_order, normToken m = m ∧ m ≠ "" := by decide
  have hmodNd : modifier_order.Nodup := by decide
  set p : String → Bool := fun k => decide (pyLower k ∈ modifier_order) with hp
  set np : String → Bool := fun k => decide (pyLower k ∉ modifier_order) with hnp
  set M := (B.filter p).map pyLower with hM
  set SM := modifier_order.filter (fun m => decide (m ∈ M)) with hSM
  set SO := pySorted (B.filter np) with hSO
  have hexp : normalize_key_combination (SM ++ SO) =
      modifier_order.filter (fun m => decide (m ∈
        ((dedupAppend [] (SM ++ SO)).filter p).map pyLower)) ++
        pySorted ((dedupAppend [] (SM ++ SO)).filter np) := rfl
  have hSMmod : ∀ x ∈ SM, x ∈ modifier_order := fun x hx => (List.mem_filter.mp hx).1
  have hSOmem : ∀ x ∈ SO, x ∈ B.filter np := by
    intro x hx
    rw [hSO] at hx
    exact (List.mem_insertionSort _).mp hx
  have hSOspec : ∀ x ∈ SO, x ∈ B ∧ pyLower x ∉ modifier_order := by
    intro x hx
    have h2 := List.mem_filter.mp (hSOmem x hx)
    exact ⟨h2.1, of_decide_eq_true h2.2⟩
  have hNspec : ∀ x ∈ SM ++ SO, normToken x = x ∧ x ≠ "" := by
    intro x hx
    rcases List.mem_append.mp hx with h | h
    · exact hmodTok x (hSMmod x h)
    · exact hBspec x (hSOspec x h).1
  have hdisj : ∀ x ∈ SM, x ∉ SO := by
    intro x hx hxo
    have h1 := hSMmod x hx
    have h2 := (hSOspec x hxo).2
    rw [hmodLower x h1] at h2
    exact h2 h1
  have hSMnd : SM.Nodup := hmodNd.filter _
  have hSOnd : SO.Nodup := by
    rw [hSO]
    exact (List.perm_insertionSort _ _).nodup_iff.mpr (hBnd.filter _)
  have hNnd : (SM ++ SO).Nodup := List.nodup_append.mpr ⟨hSMnd, hSOnd, hdisj⟩
  have hB2 : dedupAppend [] (SM ++ SO) = SM ++ SO := by
    have h := dedupAppend_of_fixed hNspec hNnd []
      (by intro x hx; simp)
    simpa using h
  have hfSM : (SM ++ SO).filter p = SM := by
    rw [List.filter_append]
    have h1 : SM.filter p = SM := List.filter_eq_self.mpr (fun a ha =>
      decide_eq_true (by
        rw [hmodLower a (hSMmod a ha)]
        exact hSMmod a ha))
    have h2 : SO.filter p = [] := List.filter_eq_nil_iff.mpr (fun a ha hpa =>
      (hSOspec a ha).2 (of_decide_eq_true hpa))
    rw [h1, h2, List.append_nil]
  have hfSO : (SM ++ SO).filter np = SO := by
    rw [List.filter_append]
    have h1 : SM.filter np = [] := List.filter_eq_nil_iff.mpr (fun a ha hpa => by
      have h2 := of_decide_eq_true hpa
      rw [hmodLower a (hSMmod a ha)] at h2
      exact h2 (hSMmod a ha))
    have h2 : SO.filter np = SO := List.filter_eq_self.mpr (fun a ha =>
      decide_eq_true (hSOspec a ha).2)
    rw [h1, h2, List.nil_append]
  have hmap : SM.map pyLower = SM :=
    map_fixed_of_eq (fun x hx => hmodLower x (hSMmod x hx))
  have hSM2 : modifier_order.filter (fun m => decide (m ∈ SM)) = SM := by
    rw [hSM]
    refine List.filter_congr ?_
    intro m hm
    rw [decide_eq_decide]
    constructor
    · intro hmem
      exact of_decide_eq_true (List.mem_filter.mp hmem).2
    · intro hmem
      exact List.mem_filter.mpr ⟨hm, decide_eq_true hmem⟩
  have hsort : pySorted SO = SO := by
    rw [hSO]
    exact (List.sorted_insertionSort _ _).insertionSort_eq
  rw [hexp, hB2, hfSM, hmap, hSM2, hfSO, hsort]

theorem normalize_key_combination_idem (keys : List String) :
    normalize_key_combination (normalize_key_combination keys) =
      normalize_key_combination keys := by
  have h1 : normalize_key_combination keys =
      (modifier_order.filter (fun m => decide (m ∈
        ((dedupAppend [] keys).filter
          (fun k => decide (pyLower k ∈ modifier_order))).map pyLower))) ++
        pySorted ((dedupAppend [] keys).filter
          (fun k => decide (pyLower k ∉ modifier_order))) := rfl
  rw [h1]
  exact normalize_pass2 (dedupAppend [] keys)
    (dedupAppend_elem_spec (by intro y hy; simp at hy))
    (dedupAppend_nodup List.nodup_nil)

/-- C7: `normalize_key_combination` is idempotent on every token list of
length 1 to 4: normalizing an already-normalized list returns it
unchanged. -/
theorem normalize_idempotent (keys : List String)
    (hlen1 : 1 ≤ keys.length) (hlen4 : keys.length ≤ 4) :
    normalize_key_combination (normalize_key_combination keys) =
      normalize_key_combination keys :=
  normalize_key_combination_idem keys

/-- Witness for C7: the `["Shift", "CTRL", "1"]` combination. -/
theorem normalize_idempotent_witness :
    1 ≤ (["Shift", "CTRL", "1"] : List String).length ∧
    (["Shift", "CTRL", "1"] : List String).length ≤ 4 ∧
    normalize_key_combination (normalize_key_combination ["Shift", "CTRL", "1"]) =
      normalize_key_combination ["Shift", "CTRL", "1"] :=
  ⟨by decide, by decide,
   normalize_idempotent ["Shift", "CTRL", "1"] (by decide) (by decide)⟩

/-! ### Claims about the Conflict Resolver -/

theorem char_eq_of_toNat_eq {a b : Char} (h : a.toNat = b.toNat) : a = b := by
  rw [← Char.ofNat_toNat a, ← Char.ofNat_toNat b, h]

theorem lexLe_antisymm : ∀ {a b : List Char},
    lexLe a b = true → lexLe b a = true → a = b
  | [], [], _, _ => rfl
  | [], _ :: _, _, h2 => by simp [lexLe] at h2
  | _ :: _, [], h1, _ => by simp [lexLe] at h1
  | x :: xs, y :: ys, h1, h2 => by
    simp only [lexLe] at h1 h2
    split_ifs at h1 h2 <;> try omega
    have hxy : x = y := char_eq_of_toNat_eq (by omega)
    rw [hxy, lexLe_antisymm h1 h2]

instance : IsAntisymm String (fun a b => strLe a b = true) where
  antisymm a b h1 h2 := by
    obtain ⟨ad⟩ := a
    obtain ⟨bd⟩ := b
    exact congrArg String.mk (lexLe_antisymm h1 h2)

theorem pySorted_eq_of_set_equal {l1 l2 : List String} (nd1 : l1.Nodup)
    (nd2 : l2.Nodup) (h : ∀ k, k ∈ l1 ↔ k ∈ l2) : pySorted l1 = pySorted l2 := by
  have hperm : List.Perm l1 l2 := (List.perm_ext_iff_of_nodup nd1 nd2).mpr h
  have hp : List.Perm (pySorted l1) (pySorted l2) :=
    (List.perm_insertionSort _ l1).trans
      (hperm.trans (List.perm_insertionSort _ l2).symm)
  exact List.eq_of_perm_of_sorted hp (List.sorted_insertionSort _ _)
    (List.sorted_insertionSort _ _)

theorem lookup_none_not_mem_keys {α β : Type} [BEq α] [LawfulBEq α]
    {m : List (α × β)} {k : α} (h : m.lookup k = none) : k ∉ m.map Prod.fst := by
  induction m with
  | nil => simp
  | cons p rest ih =>
    obtain ⟨p1, p2⟩ := p
    rw [List.lookup] at h
    by_cases hk : k == p1
    · simp [hk] at h
    · simp only [hk] at h
      simp only [List.map_cons, List.mem_cons]
      rintro (he | he)
      · exact hk (by rw [he]; exact beq_self_eq_true p1)
      · exact ih h he

theorem mem_lookup_of_nodup {α β : Type} [BEq α] [LawfulBEq α]
    {m : List (α × β)} {k : α} {v : β} (hnd : (m.map Prod.fst).Nodup)
    (h : (k, v) ∈ m) : m.lookup k = some v := by
  induction m with
  | nil => simp at h
  | cons p rest ih =>
    obtain ⟨p1, p2⟩ := p
    rw [List.map_cons, List.nodup_cons] at hnd
    rcases List.mem_cons.mp h with he | he
    · injection he with he1 he2
      subst he1
      subst he2
      rw [List.lookup]
      simp
    · rw [List.lookup]
      by_cases hk : k == p1
      · exfalso
        have hkp : k = p1 := by simpa [beq_iff_eq] using hk
        subst hkp
        exact hnd.1 (List.mem_map.mpr ⟨(k, v), he, rfl⟩)
      · simp only [hk]
        exact ih hnd.2 he

namespace ConfigManager

theorem lookup_map_bump (m : List (List String × List String)) (key : List String)
    (item : String) (key2 : List String) (hne : key2 ≠ key) :
    (m.map (fun p => if p.1 = key then (p.1, p.2 ++ [item]) else p)).lookup key2 =
      m.lookup key2 := by
  induction m with
  | nil => rfl
  | cons p rest ih =>
    obtain ⟨p1, p2⟩ := p
    simp only [List.map_cons]
    by_cases hp : p1 = key
    · rw [if_pos hp]
      rw [List.lookup, List.lookup]
      have hb : (key2 == p1) = false := by
        rw [beq_eq_false_iff_ne]
        rw [hp]
        exact hne
      rw [hb]
      exact ih
    · rw [if_neg hp]
      rw [List.lookup, List.lookup]
      by_cases hk : key2 == p1
      · rw [hk]
      · simp only [hk]
        exact ih

theorem lookup_map_bump_self (m : List (List String × List String))
    (key : List String) (item : String) {v : List String}
    (hv : m.lookup key = some v) :
    (m.map (fun p => if p.1 = key then (p.1, p.2 ++ [item]) else p)).lookup key =
      some (v ++ [item]) := by
  induction m with
  | nil => simp [List.lookup] at hv
  | cons p rest ih =>
    obtain ⟨p1, p2⟩ := p
    rw [List.lookup] at hv
    simp only [List.map_cons]
    by_cases hk : key == p1
    · simp only [hk] at hv
      have hp : p1 = key := by
        have := beq_iff_eq.mp hk
        exact this.symm
      rw [if_pos hp, List.lookup]
      simp only [hk]
      cases hv
      rfl
    · simp only [hk] at hv
      have hres := ih hv
      by_cases hp : p1 = key
      · exfalso
        rw [hp] at hk
        exact hk (beq_self_eq_true key)
      · rw [if_neg hp, List.lookup]
        simp only [hk]
        exact hres

theorem addConflict_lookup_self (m : List (List String × List String))
    (key : List String) (item : String) :
    (addConflict m key item).lookup key =
      some ((m.lookup key).getD [] ++ [item]) := by
  rw [addConflict]
  by_cases h : (m.lookup key).isSome
  · rw [if_pos h]
    obtain ⟨v, hv⟩ := Option.isSome_iff_exists.mp h
    rw [lookup_map_bump_self m key item hv, hv]
    rfl
  · rw [if_neg h]
    have hn : m.lookup key = none := Option.not_isSome_iff_eq_none.mp h
    rw [lookup_append, hn]
    simp [List.lookup]

theorem addConflict_lookup_other (m : List (List String × List String))
    (key : List String) (item : String) (key2 : List String) (hne : key2 ≠ key) :
    (addConflict m key item).lookup key2 = m.lookup key2 := by
  rw [addConflict]
  by_cases h : (m.lookup key).isSome
  · rw [if_pos h]
    exact lookup_map_bump m key item key2 hne
  · rw [if_neg h]
    rw [lookup_append]
    have : (([(key, [item])] : List (List String × List String)).lookup key2) = none := by
      rw [List.lookup]
      have hb : (key2 == key) = false := by
        rw [beq_eq_false_iff_ne]
        exact hne
      rw [hb]
      rfl
    rw [this, Option.or_none]

theorem addConflict_keys_nodup (m : List (List String × List String))
    (key : List String) (item : String) (h : (m.map Prod.fst).Nodup) :
    ((addConflict m key item).map Prod.fst).Nodup := by
  rw [addConflict]
  by_cases hs : (m.lookup key).isSome
  · rw [if_pos hs]
    have heq : (m.map (fun p => if p.1 = key then (p.1, p.2 ++ [item]) else p)).map
        Prod.fst = m.map Prod.fst := by
      rw [List.map_map]
      refine List.map_congr_left ?_
      intro p _
      by_cases hp : p.1 = key
      · simp [hp]
      · simp [hp]
    rw [heq]
    exact h
  · rw [if_neg hs]
    rw [List.map_append]
    refine List.nodup_append.mpr ⟨h, List.nodup_singleton _, ?_⟩
    intro a ha
    simp only [List.map_cons, List.map_nil, List.mem_singleton]
    intro he
    subst he
    exact lookup_none_not_mem_keys (Option.not_isSome_iff_eq_none.mp hs) ha

theorem fold_conflictStep_lookup (categories : List (String × SoundpadRuntime.CategoryConfig)) :
    ∀ (m0 : List (List String × List String)) (key : List String),
      (categories.foldl conflictStep m0).lookup key =
        mergeLookup (m0.lookup key) (itemsFor key categories) := by
  induction categories with
  | nil =>
    intro m0 key
    simp only [List.foldl_nil, itemsFor, List.filterMap_nil]
    cases m0.lookup key <;> simp [mergeLookup]
  | cons nc rest ih =>
    intro m0 key
    obtain ⟨n, c⟩ := nc
    rw [List.foldl_cons, ih]
    by_cases hks : c.keyboard_shortcut ≠ []
    · by_cases hkey : pySorted c.keyboard_shortcut = key
      · rw [show conflictStep m0 (n, c) =
            addConflict m0 (pySorted c.keyboard_shortcut) ("category:" ++ n) from by
          rw [conflictStep, if_pos hks]]
        rw [hkey, addConflict_lookup_self]
        rw [show itemsFor key ((n, c) :: rest) =
            ("category:" ++ n) :: itemsFor key rest from by
          simp [itemsFor, List.filterMap_cons, hks, hkey]]
        cases hm : m0.lookup key with
        | none =>
          simp only [Option.getD_none, List.nil_append]
          cases hits : itemsFor key rest <;> simp [mergeLookup]
        | some v =>
          simp only [Option.getD_some]
          cases hits : itemsFor key rest <;> simp [mergeLookup]
      · rw [show conflictStep m0 (n, c) =
            addConflict m0 (pySorted c.keyboard_shortcut) ("category:" ++ n) from by
          rw [conflictStep, if_pos hks]]
        rw [addConflict_lookup_other _ _ _ _ (fun he => hkey he.symm)]
        rw [show itemsFor key ((n, c) :: rest) = itemsFor key rest from by
          simp [itemsFor, List.filterMap_cons, hkey]]
    · rw [show conflictStep m0 (n, c) = m0 from by rw [conflictStep, if_neg hks]]
      have hkse : c.keyboard_shortcut = [] := not_not.mp hks
      rw [show itemsFor key ((n, c) :: rest) = itemsFor key rest from by
        simp [itemsFor, List.filterMap_cons, hkse]]

theorem fold_conflictStep_keys_nodup
    (categories : List (String × SoundpadRuntime.CategoryConfig)) :
    ∀ (m0 : List (List String × List String)), (m0.map Prod.fst).Nodup →
      ((categories.foldl conflictStep m0).map Prod.fst).Nodup := by
  induction categories with
  | nil =>
    intro m0 h
    exact h
  | cons nc rest ih =>
    intro m0 h
    rw [List.foldl_cons]
    refine ih _ ?_
    rw [conflictStep]
    by_cases hks : nc.2.keyboard_shortcut ≠ []
    · rw [if_pos hks]
      exact addConflict_keys_nodup _ _ _ h
    · rw [if_neg hks]
      exact h

end ConfigManager

theorem one_lt_length_of_two_mem {α : Type} {x y : α} {l : List α} (hxy : x ≠ y)
    (hx : x ∈ l) (hy : y ∈ l) : 1 < l.length := by
  cases l with
  | nil => simp at hx
  | cons a t =>
    cases t with
    | nil =>
      simp only [List.mem_singleton] at hx hy
      exact absurd (hx.trans hy.symm) hxy
    | cons b u =>
      simp only [List.length_cons]
      omega

theorem entry_unique {α β : Type} {l : List (α × β)} (h : (l.map Prod.fst).Nodup)
    {n : α} {a b : β} (ha : (n, a) ∈ l) (hb : (n, b) ∈ l) : a = b := by
  induction l with
  | nil => simp at ha
  | cons p rest ih =>
    rw [List.map_cons, List.nodup_cons] at h
    rcases List.mem_cons.mp ha with he | he <;> rcases List.mem_cons.mp hb with he2 | he2
    · have := he.trans he2.symm
      injection this with _ h2
    · exfalso
      refine h.1 (List.mem_map.mpr ⟨(n, b), he2, ?_⟩)
      rw [← he]
    · exfalso
      refine h.1 (List.mem_map.mpr ⟨(n, a), he, ?_⟩)
      rw [← he2]
    · exact ih h.2 he he2

theorem cat_ne_pause (n : String) : ("category:" ++ n) ≠ "pause_resume" := by
  intro h
  have hd := congrArg String.data h
  rw [String.data_append,
    show ("category:" : String).data = 'c' :: ("ategory:" : String).data from rfl,
    show ("pause_resume" : String).data = 'p' :: ("ause_resume" : String).data from rfl,
    List.cons_append] at hd
  injection hd with h1 _
  exact absurd h1 (by decide)

theorem cat_inj {a b : String} (h : ("category:" ++ a) = ("category:" ++ b)) :
    a = b := by
  obtain ⟨ad⟩ := a
  obtain ⟨bd⟩ := b
  have hd := congrArg String.data h
  rw [String.data_append, String.data_append] at hd
  exact congrArg String.mk (List.append_cancel_left hd)

namespace ConfigManager

theorem mem_itemsFor {x : String} {key : List String}
    {categories : List (String × SoundpadRuntime.CategoryConfig)}
    (hx : x ∈ itemsFor key categories) :
    ∃ nc ∈ categories, nc.2.keyboard_shortcut ≠ [] ∧
      pySorted nc.2.keyboard_shortcut = key ∧ x = "category:" ++ nc.1 := by
  rw [itemsFor] at hx
  obtain ⟨nc, hmem, hf⟩ := List.mem_filterMap.mp hx
  by_cases hc : nc.2.keyboard_shortcut ≠ [] ∧ pySorted nc.2.keyboard_shortcut = key
  · rw [if_pos hc] at hf
    cases hf
    exact ⟨nc, hmem, hc.1, hc.2, rfl⟩
  · rw [if_neg hc] at hf
    cases hf

theorem itemsFor_mem {key : List String}
    {categories : List (String × SoundpadRuntime.CategoryConfig)}
    {n : String} {c : SoundpadRuntime.CategoryConfig} (h : (n, c) ∈ categories)
    (hk : c.keyboard_shortcut ≠ []) (hkey : pySorted c.keyboard_shortcut = key) :
    ("category:" ++ n) ∈ itemsFor key categories := by
  rw [itemsFor]
  refine List.mem_filterMap.mpr ⟨(n, c), h, ?_⟩
  rw [if_pos ⟨hk, hkey⟩]

theorem m2_lookup (categories : List (String × SoundpadRuntime.CategoryConfig))
    (stop : List String) (key : List String) :
    (if stop ≠ [] then
        addConflict (categories.foldl conflictStep []) (pySorted stop) "pause_resume"
      else categories.foldl conflictStep []).lookup key =
      (if (itemsFor key categories ++
            (if stop ≠ [] ∧ pySorted stop = key then ["pause_resume"] else [])) = []
       then none
       else some (itemsFor key categories ++
            (if stop ≠ [] ∧ pySorted stop = key then ["pause_resume"] else []))) := by
  have hm1 : (categories.foldl conflictStep []).lookup key =
      mergeLookup none (itemsFor key categories) :=
    fold_conflictStep_lookup categories [] key
  by_cases hstop : stop ≠ []
  · by_cases hpk : pySorted stop = key
    · rw [if_pos hstop, hpk, addConflict_lookup_self, hm1]
      rw [if_pos (show stop ≠ [] ∧ key = key from ⟨hstop, rfl⟩)]
      rw [if_neg (show ¬(itemsFor key categories ++ ["pause_resume"]) = [] from
        by simp)]
      cases hits : itemsFor key categories with
      | nil => simp [mergeLookup]
      | cons a t => simp [mergeLookup]
    · rw [if_pos hstop, addConflict_lookup_other _ _ _ _ (fun he => hpk he.symm), hm1]
      rw [if_neg (show ¬(stop ≠ [] ∧ pySorted stop = key) from fun hc => hpk hc.2)]
      rw [List.append_nil]
      cases hits : itemsFor key categories with
      | nil => simp [mergeLookup]
      | cons a t => simp [mergeLookup]
  · rw [if_neg hstop, hm1]
    rw [if_neg (show ¬(stop ≠ [] ∧ pySorted stop = key) from fun hc => hstop hc.1)]
    rw [List.append_nil]
    cases hits : itemsFor key categories with
    | nil => simp [mergeLookup]
    | cons a t => simp [mergeLookup]

theorem m2_keys_nodup (categories : List (String × SoundpadRuntime.CategoryConfig))
    (stop : List String) :
    ((if stop ≠ [] then
        addConflict (categories.foldl conflictStep []) (pySorted stop) "pause_resume"
      else categories.foldl conflictStep []).map Prod.fst).Nodup := by
  have h1 : ((categories.foldl conflictStep []).map Prod.fst).Nodup :=
    fold_conflictStep_keys_nodup categories [] (by simp)
  by_cases hstop : stop ≠ []
  · rw [if_pos hstop]
    exact addConflict_keys_nodup _ _ _ h1
  · rw [if_neg hstop]
    exact h1

theorem gcs_expand (categories : List (String × SoundpadRuntime.CategoryConfig))
    (stop : List String) :
    get_conflicting_shortcuts categories stop =
      (if stop ≠ [] then
        addConflict (categories.foldl conflictStep []) (pySorted stop) "pause_resume"
      else categories.foldl conflictStep []).filter
        (fun p => decide (1 < p.2.length)) := rfl

end ConfigManager

/-- C6 (counterexample): two bindings whose key lists are set-equal but
differ as multisets — `["ctrl", "ctrl"]` versus `["ctrl"]` — are not
reported as conflicting, because the resolver keys conflicts by
`tuple(sorted(shortcut))`, which distinguishes duplicate tokens. -/
theorem conflicts_set_equal_unreported_cex :
    (["ctrl", "ctrl"] : List String).toFinset = (["ctrl"] : List String).toFinset ∧
    ConfigManager.get_conflicting_shortcuts
      [("a", ⟨1, ["ctrl", "ctrl"], "", true, 0⟩),
       ("b", ⟨2, ["ctrl"], "", true, 0⟩)] [] = [] := by
  constructor
  · decide
  · rfl

/-- C6 (amended): the Conflict Resolver reports exactly the groups of
bindings whose key lists sort to the same tuple (equality as multisets;
for duplicate-free key lists, as the KeyCombination invariant provides,
this coincides with set-equality): (a) any two distinct categories with
nonempty, duplicate-free, set-equal key lists are reported under their
common sorted key, (b) likewise a category against the reserved
pause/resume binding, and (c) any two categories reported under one key
have set-equal key lists. -/
theorem conflicts_reported_iff_sorted_set_equal :
    (∀ (categories : List (String × SoundpadRuntime.CategoryConfig))
       (stop : List String) (n1 n2 : String)
       (c1 c2 : SoundpadRuntime.CategoryConfig),
      (n1, c1) ∈ categories → (n2, c2) ∈ categories → n1 ≠ n2 →
      c1.keyboard_shortcut ≠ [] → c2.keyboard_shortcut ≠ [] →
      c1.keyboard_shortcut.Nodup → c2.keyboard_shortcut.Nodup →
      (∀ k, k ∈ c1.keyboard_shortcut ↔ k ∈ c2.keyboard_shortcut) →
      ∃ owners,
        (pySorted c1.keyboard_shortcut, owners) ∈
          ConfigManager.get_conflicting_shortcuts categories stop ∧
        ("category:" ++ n1) ∈ owners ∧ ("category:" ++ n2) ∈ owners) ∧
    (∀ (categories : List (String × SoundpadRuntime.CategoryConfig))
       (stop : List String) (n1 : String) (c1 : SoundpadRuntime.CategoryConfig),
      (n1, c1) ∈ categories → stop ≠ [] → c1.keyboard_shortcut ≠ [] →
      c1.keyboard_shortcut.Nodup → stop.Nodup →
      (∀ k, k ∈ c1.keyboard_shortcut ↔ k ∈ stop) →
      ∃ owners,
        (pySorted c1.keyboard_shortcut, owners) ∈
          ConfigManager.get_conflicting_shortcuts categories stop ∧
        ("category:" ++ n1) ∈ owners ∧ "pause_resume" ∈ owners) ∧
    (∀ (categories : List (String × SoundpadRuntime.CategoryConfig))
       (stop : List String) (key : List String) (owners : List String)
       (n1 n2 : String) (c1 c2 : SoundpadRuntime.CategoryConfig),
      (categories.map Prod.fst).Nodup →
      (key, owners) ∈ ConfigManager.get_conflicting_shortcuts categories stop →
      (n1, c1) ∈ categories → (n2, c2) ∈ categories →
      ("category:" ++ n1) ∈ owners → ("category:" ++ n2) ∈ owners →
      ∀ k, (k ∈ c1.keyboard_shortcut ↔ k ∈ c2.keyboard_shortcut)) := by
  refine ⟨?_, ?_, ?_⟩
  · intro categories stop n1 n2 c1 c2 h1 h2 hne hk1 hk2 nd1 nd2 hset
    have hkey2 : pySorted c2.keyboard_shortcut = pySorted c1.keyboard_shortcut :=
      pySorted_eq_of_set_equal nd2 nd1 (fun k => (hset k).symm)
    have hi1 : ("category:" ++ n1) ∈
        ConfigManager.itemsFor (pySorted c1.keyboard_shortcut) categories :=
      ConfigManager.itemsFor_mem h1 hk1 rfl
    have hi2 : ("category:" ++ n2) ∈
        ConfigManager.itemsFor (pySorted c1.keyboard_shortcut) categories :=
      ConfigManager.itemsFor_mem h2 hk2 hkey2
    set base := ConfigManager.itemsFor (pySorted c1.keyboard_shortcut) categories ++
      (if stop ≠ [] ∧ pySorted stop = pySorted c1.keyboard_shortcut then
        ["pause_resume"] else []) with hbase
    have hb1 : ("category:" ++ n1) ∈ base := List.mem_append.mpr (Or.inl hi1)
    have hb2 : ("category:" ++ n2) ∈ base := List.mem_append.mpr (Or.inl hi2)
    have hbne : ¬ base = [] := List.ne_nil_of_mem hb1
    have hlk : (if stop ≠ [] then
        ConfigManager.addConflict (categories.foldl ConfigManager.conflictStep [])
          (pySorted stop) "pause_resume"
      else categories.foldl ConfigManager.conflictStep []).lookup
        (pySorted c1.keyboard_shortcut) = some base := by
      rw [ConfigManager.m2_lookup, ← hbase, if_neg hbne]
    have hlen : 1 < base.length :=
      one_lt_length_of_two_mem (fun he => hne (cat_inj he)) hb1 hb2
    refine ⟨base, ?_, hb1, hb2⟩
    rw [ConfigManager.gcs_expand]
    exact List.mem_filter.mpr ⟨lookup_mem hlk, decide_eq_true hlen⟩
  · intro categories stop n1 c1 h1 hstop hk1 nd1 ndstop hset
    have hps : pySorted stop = pySorted c1.keyboard_shortcut :=
      pySorted_eq_of_set_equal ndstop nd1 (fun k => (hset k).symm)
    have hi1 : ("category:" ++ n1) ∈
        ConfigManager.itemsFor (pySorted c1.keyboard_shortcut) categories :=
      ConfigManager.itemsFor_mem h1 hk1 rfl
    set base := ConfigManager.itemsFor (pySorted c1.keyboard_shortcut) categories ++
      (if stop ≠ [] ∧ pySorted stop = pySorted c1.keyboard_shortcut then
        ["pause_resume"] else []) with hbase
    have hb1 : ("category:" ++ n1) ∈ base := List.mem_append.mpr (Or.inl hi1)
    have hbp : "pause_resume" ∈ base := by
      refine List.mem_append.mpr (Or.inr ?_)
      rw [if_pos ⟨hstop, hps⟩]
      exact List.mem_singleton.mpr rfl
    have hbne : ¬ base = [] := List.ne_nil_of_mem hb1
    have hlk : (if stop ≠ [] then
        ConfigManager.addConflict (categories.foldl ConfigManager.conflictStep [])
          (pySorted stop) "pause_resume"
      else categories.foldl ConfigManager.conflictStep []).lookup
        (pySorted c1.keyboard_shortcut) = some base := by
      rw [ConfigManager.m2_lookup, ← hbase, if_neg hbne]
    have hlen : 1 < base.length :=
      one_lt_length_of_two_mem (cat_ne_pause n1) hb1 hbp
    refine ⟨base, ?_, hb1, hbp⟩
    rw [ConfigManager.gcs_expand]
    exact List.mem_filter.mpr ⟨lookup_mem hlk, decide_eq_true hlen⟩
  · intro categories stop key owners n1 n2 c1 c2 hndn hmem h1 h2 ho1 ho2
    rw [ConfigManager.gcs_expand] at hmem
    have hm2 := (List.mem_filter.mp hmem).1
    have hlk := mem_lookup_of_nodup (ConfigManager.m2_keys_nodup categories stop) hm2
    rw [ConfigManager.m2_lookup] at hlk
    by_cases hb : (ConfigManager.itemsFor key categories ++
        (if stop ≠ [] ∧ pySorted stop = key then ["pause_resume"] else [])) = []
    · rw [if_pos hb] at hlk
      cases hlk
    · rw [if_neg hb] at hlk
      injection hlk with hlk
      have hsub : ∀ x ∈ owners, x ∈ ConfigManager.itemsFor key categories ∨
          x = "pause_resume" := by
        intro x hx
        rw [← hlk] at hx
        rcases List.mem_append.mp hx with hA | hB
        · exact Or.inl hA
        · right
          by_cases hc : stop ≠ [] ∧ pySorted stop = key
          · rw [if_pos hc] at hB
            exact List.mem_singleton.mp hB
          · rw [if_neg hc] at hB
            cases hB
      have hcat : ∀ (n : String) (c : SoundpadRuntime.CategoryConfig),
          (n, c) ∈ categories → ("category:" ++ n) ∈ owners →
          pySorted c.keyboard_shortcut = key := by
        intro n c hc ho
        rcases hsub _ ho with hA | hB
        · obtain ⟨nc, hmemc, hkne, hkeq, hxeq⟩ := ConfigManager.mem_itemsFor hA
          have hn : n = nc.1 := cat_inj hxeq
          have hmemc2 : (nc.1, nc.2) ∈ categories := hmemc
          rw [← hn] at hmemc2
          have hcc : nc.2 = c := entry_unique hndn hmemc2 hc
          rw [← hcc]
          exact hkeq
        · exact absurd hB (cat_ne_pause n)
      have hc1 := hcat n1 c1 h1 ho1
      have hc2 := hcat n2 c2 h2 ho2
      intro k
      have hss : pySorted c1.keyboard_shortcut = pySorted c2.keyboard_shortcut :=
        hc1.trans hc2.symm
      have hmemP : ∀ (l : List String) (x : String), x ∈ pySorted l ↔ x ∈ l :=
        fun l x => List.mem_insertionSort _
      constructor
      · intro hk
        have hk1 : k ∈ pySorted c1.keyboard_shortcut := (hmemP _ _).mpr hk
        rw [hss] at hk1
        exact (hmemP _ _).mp hk1
      · intro hk
        have hk2 : k ∈ pySorted c2.keyboard_shortcut := (hmemP _ _).mpr hk
        rw [← hss] at hk2
        exact (hmemP _ _).mp hk2

/-- Witness for C6 (amended): two categories with set-equal,
duplicate-free key lists in different orders are reported together. -/
theorem conflicts_reported_witness :
    ∃ owners,
      (pySorted ["ctrl", "1"], owners) ∈
        ConfigManager.get_conflicting_shortcuts
          [("a", ⟨1, ["ctrl", "1"], "", true, 0⟩),
           ("b", ⟨2, ["1", "ctrl"], "", true, 0⟩)] [] ∧
      ("category:" ++ "a") ∈ owners ∧ ("category:" ++ "b") ∈ owners :=
  conflicts_reported_iff_sorted_set_equal.1
    [("a", ⟨1, ["ctrl", "1"], "", true, 0⟩), ("b", ⟨2, ["1", "ctrl"], "", true, 0⟩)]
    [] "a" "b" ⟨1, ["ctrl", "1"], "", true, 0⟩ ⟨2, ["1", "ctrl"], "", true, 0⟩
    (by decide) (by decide) (by decide) (by decide) (by decide) (by decide)
    (by decide)
    (by
      intro k
      simp only [List.mem_cons, List.not_mem_nil, or_false]
      tauto)
